import Mathlib

/-!
Verification of the resume-match engine's bulk analysis pipeline.

This development shallowly embeds the orchestration core of the repository:
`analyze_bulk_resumes_parallel` and its inner worker `process_resume`
(Backend/utils/context_caching.py), the retry facade `upload_file_with_retry`,
and the persistence operations of Backend/utils/db_manager.py.

Modelling conventions:
- Remote calls (file upload, cache creation, scoring, file deletion) and
  the fallible Document Store transactions are oracles recorded in an
  `Env` value: each effectful call site is covered by a field holding the
  outcome that call would produce (see the `Env` doc comment for how the
  psycopg2 write failures of db_manager map onto the fields).
  Machine-level concerns (actual network traffic, thread scheduling) are
  abstracted away; the completion order of the thread pool is an explicit
  permutation parameter.
- Python exceptions become an error type `PyErr`; `try/except` becomes
  `Except` values threaded explicitly.
- JSON payloads are association lists of top-level fields; nested arrays and
  objects, which the code never inspects, are carried as opaque serialized
  values.
- The per-user Postgres JSONB blob of db_manager.py is a `UserData` record;
  each save helper performs the read-modify-write that the source performs.
- Wall-clock time is a `Clock` oracle distinguishing what `datetime.now()`
  returns (local time) from what the same instant formats to in UTC.
-/

namespace ResumeMatch

/-- Python exception kinds relevant to the analyzer: the three transient
connection types named in the tenacity retry filter, `ValueError`
(unsupported format), and every other exception lumped together. -/
inductive PyErr : Type where
  | connectError (msg : String)
  | connectionError (msg : String)
  | timeoutError (msg : String)
  | valueError (msg : String)
  | otherError (msg : String)
deriving DecidableEq, Repr

/-- `str(e)`: the message a Python exception renders to. -/
def PyErr.message : PyErr → String
  | .connectError m => m
  | .connectionError m => m
  | .timeoutError m => m
  | .valueError m => m
  | .otherError m => m

/-- The retry filter `retry_if_exception_type((httpx.ConnectError,
ConnectionError, TimeoutError))`. -/
def PyErr.isTransient : PyErr → Bool
  | .connectError _ => true
  | .connectionError _ => true
  | .timeoutError _ => true
  | .valueError _ => false
  | .otherError _ => false

/-- The process clock: `localIso` is what `datetime.now().isoformat()`
returns on this machine; `utcIso` is what the same instant would format to
in UTC. The two differ whenever the machine's timezone is not UTC. -/
structure Clock where
  localIso : String
  utcIso : String
deriving DecidableEq, Repr

/-- Python truthiness of an optional string (`if username:`): `None` and the
empty string are falsy. -/
def strTruthy : Option String → Bool
  | none => false
  | some s => s != ""

/-- Python truthiness of an optional integer id (`if db_file_id:`): `None`
and `0` are falsy. -/
def natIdTruthy : Option Nat → Bool
  | none => false
  | some n => n != 0

/-- `Path(p).name`: the final path component (both separator styles). -/
def lastComponent (p : String) : String :=
  String.mk (p.data.foldl (fun acc c => if c = '/' ∨ c = '\\' then [] else acc ++ [c]) [])

/-- Index of the last '.' in a name, if any. -/
def lastDotIdx (cs : List Char) : Option Nat :=
  (List.range cs.length).foldl
    (fun acc i => if cs.get? i = some '.' then some i else acc) none

/-- `Path(p).suffix`: the extension of the final component including the
dot, empty when the name has no dot, starts with its only dot, or ends in
a dot — pathlib's `0 < i < len(name) - 1` rule. -/
def pathSuffix (p : String) : String :=
  let name := (lastComponent p).data
  match lastDotIdx name with
  | some i => if 0 < i ∧ i < name.length - 1 then String.mk (name.drop i) else ""
  | none => ""

/-- `s.lower()` restricted to the ASCII case mapping used on extensions. -/
def lowerStr (s : String) : String := String.mk (s.data.map Char.toLower)

/-- `s[1:]`: drop the leading dot of a suffix to obtain the file type. -/
def dropDot (s : String) : String := String.mk s.data.tail

/-- The membership test of `_validate_file_type`:
`path.suffix.lower() in {".pdf", ".docx"}`. -/
def allowedSuffix (suffix : String) : Bool :=
  lowerStr suffix == ".pdf" || lowerStr suffix == ".docx"

/-- The `ValueError` message raised for an unsupported extension. -/
def unsupportedMsg (suffix : String) : String :=
  "Unsupported file type: " ++ suffix ++ ". Only PDF and DOCX are supported."

/-- `_validate_file_type(path)`: raises `ValueError` unless the lowered
suffix is .pdf or .docx. -/
def validateFileType (p : String) : Except PyErr Unit :=
  if allowedSuffix (pathSuffix p) then .ok ()
  else .error (.valueError (unsupportedMsg (pathSuffix p)))

/-- `_get_mime_type(path)`: application/pdf for .pdf, text/plain otherwise
(the docx branch also ends up text/plain upstream). -/
def getMimeType (p : String) : String :=
  if lowerStr (pathSuffix p) == ".pdf" then "application/pdf" else "text/plain"

/-- tenacity `wait_exponential(multiplier, min=minW, max=maxW)` evaluated at
a 1-based attempt number: `multiplier * 2 ** attempt_number` clamped into
`[minW, maxW]`. -/
def tenacityWait (multiplier minW maxW attemptNumber : Nat) : Nat :=
  max minW (min (multiplier * 2 ^ attemptNumber) maxW)

/-- The tenacity retry loop: `attempt` is the 0-based index of the next
attempt, `remaining` the number of attempts still allowed.  Returns the
final outcome, the total number of attempts performed, and the list of
waits slept between attempts.  On the last allowed attempt the outcome is
propagated as-is; earlier, a retryable failure sleeps `wait` of the failed
attempt's 1-based number and recurses, while a non-retryable failure
propagates immediately. -/
def retryLoop {α : Type} (retryable : PyErr → Bool) (wait : Nat → Nat)
    (outcomes : Nat → Except PyErr α) :
    Nat → Nat → Except PyErr α × Nat × List Nat
  | attempt, 0 => (.error (.otherError "retry: no attempts"), attempt, [])
  | attempt, 1 => (outcomes attempt, attempt + 1, [])
  | attempt, remaining + 2 =>
    match outcomes attempt with
    | .ok a => (.ok a, attempt + 1, [])
    | .error e =>
      if retryable e then
        let rest := retryLoop retryable wait outcomes (attempt + 1) (remaining + 1)
        (rest.1, rest.2.1, wait (attempt + 1) :: rest.2.2)
      else (.error e, attempt + 1, [])

/-- The retry policy wrapping `upload_file_with_retry`:
`stop_after_attempt(3)`, `wait_exponential(multiplier=1, min=4, max=10)`,
retrying only transient connection errors.  `outcomes n` is the result the
underlying upload call would produce on 0-based attempt `n`. -/
def uploadFileWithRetry {α : Type} (outcomes : Nat → Except PyErr α) :
    Except PyErr α × Nat × List Nat :=
  retryLoop PyErr.isTransient (tenacityWait 1 4 10) outcomes 0 3

/-- A top-level JSON value.  Nested arrays and objects are never inspected
by the code, so they are carried opaquely as their serialized text. -/
inductive JVal : Type where
  | jnull
  | jbool (b : Bool)
  | jnum (n : Int)
  | jstr (s : String)
  | jopaque (serialized : String)
deriving DecidableEq, Repr

/-- A parsed JSON object (a Python dict with unique keys), and likewise the
orchestrator's `results` dict keyed by resume path. -/
def dictGet {α : Type} : List (String × α) → String → Option α
  | [], _ => none
  | (k', v) :: rest, k => if k' = k then some v else dictGet rest k

/-- Python dict assignment `d[k] = v`: overwrite the existing key in place,
otherwise append the new key at the end. -/
def dictSet {α : Type} : List (String × α) → String → α → List (String × α)
  | [], k, v => [(k, v)]
  | (k', v') :: rest, k, v =>
    if k' = k then (k, v) :: rest else (k', v') :: dictSet rest k v

/-- One JSON object, abbreviating its field list. -/
abbrev JObj := List (String × JVal)

/-- An element of the user's `files` list (db_manager.save_file_record). -/
structure FileRecord where
  id : Nat
  filename : String
  filePath : String
  fileType : String
  mimeType : String
  geminiFileId : Option String
  uploadTimestamp : String
deriving DecidableEq, Repr

/-- An element of the user's `caches` list (db_manager.save_cache_record). -/
structure CacheRecord where
  id : Nat
  cacheName : String
  displayName : String
  jdFileId : Option Nat
  resumeFileId : Option Nat
  ttl : Nat
  createdAt : String
deriving DecidableEq, Repr

/-- An element of the user's `analysis_results` list
(db_manager.save_analysis_result).  `resultJson` is the parsed form of the
stored result string; every caller passes the dump of a JSON object, so the
score/recommendation extraction's `isinstance(result_data, dict)` test
always sees a dict here. -/
structure AnalysisRecord where
  id : Nat
  cacheId : Option Nat
  jdFileId : Option Nat
  resumeFileId : Option Nat
  resultJson : JObj
  score : Option JVal
  recommendation : Option JVal
  processedAt : String
deriving DecidableEq, Repr

/-- An element of the user's `batch_jobs` list (db_manager.save_batch_job). -/
structure BatchRecord where
  id : Nat
  jobName : String
  jobState : String
  numRequests : Nat
  createdAt : String
  completedAt : Option String
deriving DecidableEq, Repr

/-- The per-user JSONB blob `user_data.data`, with its four append-only
lists. -/
structure UserData where
  files : List FileRecord
  caches : List CacheRecord
  analysisResults : List AnalysisRecord
  batchJobs : List BatchRecord
deriving DecidableEq, Repr

/-- The blob a fresh user row starts from (`data` defaults to `{}`). -/
def UserData.empty : UserData := ⟨[], [], [], []⟩

/-- db_manager.save_file_record: append a file record whose id is
`len(user_data['files']) + 1`; returns the updated blob and the new id.
The source stores `str(Path(filename).absolute())` as the path; the
absolute-path resolution is environment-dependent, so the model keeps the
caller-supplied path text. -/
def saveFileRecord (d : UserData) (filename filePath fileType mimeType : String)
    (geminiFileId : Option String) (now : String) : UserData × Nat :=
  let newId := d.files.length + 1
  ({ d with files :=
      d.files ++ [⟨newId, filename, filePath, fileType, mimeType, geminiFileId, now⟩] },
   newId)

/-- db_manager.save_cache_record: append a cache record with id
`len(user_data['caches']) + 1`. -/
def saveCacheRecord (d : UserData) (cacheName displayName : String)
    (jdFileId resumeFileId : Option Nat) (ttl : Nat) (now : String) :
    UserData × Nat :=
  let newId := d.caches.length + 1
  ({ d with caches :=
      d.caches ++ [⟨newId, cacheName, displayName, jdFileId, resumeFileId, ttl, now⟩] },
   newId)

/-- db_manager.save_analysis_result: extract `overall_fit_score` and
`recommendation` from the result object for fast lookup, then append a
record with id `len(user_data['analysis_results']) + 1`. -/
def saveAnalysisResult (d : UserData) (cacheId jdFileId resumeFileId : Option Nat)
    (resultJson : JObj) (now : String) : UserData × Nat :=
  let score := dictGet resultJson "overall_fit_score"
  let recommendation := dictGet resultJson "recommendation"
  let newId := d.analysisResults.length + 1
  ({ d with analysisResults :=
      d.analysisResults ++
        [⟨newId, cacheId, jdFileId, resumeFileId, resultJson, score, recommendation, now⟩] },
   newId)

/-- db_manager.save_batch_job: append a batch-job record with id
`len(user_data['batch_jobs']) + 1`. -/
def saveBatchJob (d : UserData) (jobName jobState : String) (numRequests : Nat)
    (now : String) : UserData × Nat :=
  let newId := d.batchJobs.length + 1
  ({ d with batchJobs :=
      d.batchJobs ++ [⟨newId, jobName, jobState, numRequests, now, none⟩] },
   newId)

/-- The terminal job states of db_manager.update_batch_job_status. -/
def completedStates : List String :=
  ["JOB_STATE_SUCCEEDED", "JOB_STATE_FAILED", "JOB_STATE_CANCELLED", "JOB_STATE_EXPIRED"]

/-- The in-place update loop of update_batch_job_status: mutate the first
job whose id matches, then `break`. -/
def updateJobs (jobId : Nat) (jobState : String) (completedAt : Option String)
    (now : String) : List BatchRecord → List BatchRecord
  | [] => []
  | job :: rest =>
    if job.id = jobId then
      { job with
        jobState := jobState,
        completedAt :=
          if completedAt = none ∧ jobState ∈ completedStates then some now
          else completedAt } :: rest
    else job :: updateJobs jobId jobState completedAt now rest

/-- db_manager.update_batch_job_status on the user's blob. -/
def updateBatchJobStatus (d : UserData) (jobId : Nat) (jobState : String)
    (completedAt : Option String) (now : String) : UserData :=
  { d with batchJobs := updateJobs jobId jobState completedAt now d.batchJobs }

/-- The user blobs this repository can actually produce: starting from a
fresh row, closed under the db_manager mutators (the repository never
deletes records). -/
inductive Reachable : UserData → Prop where
  | init : Reachable UserData.empty
  | file (d : UserData) (fn fp ft mt now : String) (gid : Option String) :
      Reachable d → Reachable (saveFileRecord d fn fp ft mt gid now).1
  | cache (d : UserData) (cn dn now : String) (jfid rfid : Option Nat) (ttl : Nat) :
      Reachable d → Reachable (saveCacheRecord d cn dn jfid rfid ttl now).1
  | analysis (d : UserData) (cid jfid rfid : Option Nat) (rj : JObj) (now : String) :
      Reachable d → Reachable (saveAnalysisResult d cid jfid rfid rj now).1
  | batch (d : UserData) (jn js : String) (nr : Nat) (now : String) :
      Reachable d → Reachable (saveBatchJob d jn js nr now).1
  | upd (d : UserData) (jobId : Nat) (js : String) (ca : Option String) (now : String) :
      Reachable d → Reachable (updateBatchJobStatus d jobId js ca now)

/-- The maximum id present in a list of ids (0 when empty). -/
def maxId (ids : List Nat) : Nat := ids.foldr max 0

/-- What `client.models.generate_content` hands back for one scoring call:
the response text, together with whether `json.loads` on it succeeds (and
then to which object — the schema constrains responses to JSON objects) or
raises `JSONDecodeError`. -/
inductive ScoreResponse : Type where
  | parsedObj (fields : JObj) (raw : String)
  | unparsable (raw : String)
deriving DecidableEq, Repr

/-- `response.text` of a scoring response. -/
def ScoreResponse.text : ScoreResponse → String
  | .parsedObj _ raw => raw
  | .unparsable raw => raw

/-- The oracle for one process_resume task: the outcome each effectful call
site would produce, plus the snapshot of the user's blob this task reads.
The processing-state poll loops terminate with the handles ready and no
observable state change, so they have no field.

How the Document Store's fallibility is covered:
- `resumeUpload`/`jdUpload` give the outcome of one whole attempt of
  upload_file_with_retry's `try` body — the remote upload together with
  the guarded `save_file_record` write, whose psycopg2 failure is
  re-raised through the same `except/raise` and the same retry filter, so
  one `Except` per attempt covers both.
- `cacheCreate` gives the outcome of the cache-creation step — the remote
  `caches.create` together with the adjacent guarded `save_cache_record`
  transaction: either failure reaches the outer handler before scoring
  with no cache record committed (psycopg2 rolls back), so the two are
  observationally one fallible step.
- `saveAnalysisWrite` is the transaction outcome of the post-score
  `save_analysis_result` call (consulted only when the persistence guard
  holds): on failure db_manager rolls the blob back and re-raises, so the
  exception reaches the outer handler after scoring but before cleanup. -/
structure Env where
  clock : Clock
  db : UserData
  readResume : Except PyErr Unit
  readJd : Except PyErr Unit
  resumeUpload : Nat → Except PyErr String
  jdUpload : Nat → Except PyErr String
  cacheCreate : Except PyErr String
  score : Except PyErr ScoreResponse
  saveAnalysisWrite : Except PyErr Unit
  deleteResumeOk : Bool
  deleteJdOk : Bool

/-- The value a successful process_resume task yields for its path. -/
inductive PRVal : Type where
  | structured (fields : JObj)
  | raw (s : String)
  | text (s : String)
deriving DecidableEq, Repr

/-- What lands in the orchestrator's results dict for one path: a success
value or the `"Error: " + str(e)` string of the caught exception. -/
inductive PRResult : Type where
  | ok (v : PRVal)
  | errStr (s : String)
deriving DecidableEq, Repr

/-- One finished process_resume call: the (path, result) pair it returns,
the user's blob after the task's DB writes, and how many times
`client.files.delete` was invoked. -/
structure PRRun where
  path : String
  result : PRResult
  db : UserData
  deleteCalls : Nat
deriving Repr

/-- One call of upload_file_with_retry inside process_resume: run the retry
policy; on success, save a file record when username, filename and
file_type are all truthy, and hand back the handle with the optional record
id. -/
def uploadStep (attempts : Nat → Except PyErr String) (db : UserData)
    (username : Option String) (filename fileType mimeType now : String) :
    Except PyErr (String × Option Nat) × UserData :=
  match (uploadFileWithRetry attempts).1 with
  | .error e => (.error e, db)
  | .ok handle =>
    let saved : UserData × Option Nat :=
      if strTruthy username && (filename != "") && (fileType != "") then
        let r := saveFileRecord db filename filename fileType mimeType (some handle) now
        (r.1, some r.2)
      else (db, none)
    (.ok (handle, saved.2), saved.1)

/-- The body of process_resume up to its outer `except`: validate and read
the resume then the JD, upload both (resume first), create the pair cache,
persist a cache record under the source's truthiness guards, score, handle
the structured/unstructured result exactly as the source does — including
the guarded `save_analysis_result` write, whose psycopg2 failure is not a
`json.JSONDecodeError` and therefore escapes to the outer handler after
scoring but before cleanup, with the blob rolled back — then run the
cleanup block (delete resume handle, then JD handle; a delete failure is
swallowed and skips the remaining delete).  Returns the outcome, the blob
after whatever DB writes happened, and the number of delete invocations. -/
def processResumeBody (env : Env) (resumePath jdFilePath : String)
    (username : Option String) (useStructuredOutput : Bool) :
    Except PyErr PRVal × UserData × Nat :=
  let userId : Option String := if strTruthy username then username else none
  match validateFileType resumePath with
  | .error e => (.error e, env.db, 0)
  | .ok _ =>
  match env.readResume with
  | .error e => (.error e, env.db, 0)
  | .ok _ =>
  match validateFileType jdFilePath with
  | .error e => (.error e, env.db, 0)
  | .ok _ =>
  match env.readJd with
  | .error e => (.error e, env.db, 0)
  | .ok _ =>
  let resumeName := lastComponent resumePath
  let resumeType := dropDot (lowerStr (pathSuffix resumePath))
  let jdName := lastComponent jdFilePath
  let jdType := dropDot (lowerStr (pathSuffix jdFilePath))
  let ur := uploadStep env.resumeUpload env.db username resumeName resumeType
      (getMimeType resumePath) env.clock.localIso
  match ur.1 with
  | .error e => (.error e, ur.2, 0)
  | .ok rh =>
  let uj := uploadStep env.jdUpload ur.2 username jdName jdType
      (getMimeType jdFilePath) env.clock.localIso
  match uj.1 with
  | .error e => (.error e, uj.2, 0)
  | .ok jh =>
  match env.cacheCreate with
  | .error e => (.error e, uj.2, 0)
  | .ok cacheName =>
  let displayName := "Cache with " ++ jdName ++ " and " ++ resumeName
  let cacheSaved : UserData × Option Nat :=
    if strTruthy username && strTruthy userId && natIdTruthy jh.2 && natIdTruthy rh.2 then
      let r := saveCacheRecord uj.2 cacheName displayName jh.2 rh.2 1800 env.clock.localIso
      (r.1, some r.2)
    else (uj.2, none)
  match env.score with
  | .error e => (.error e, cacheSaved.1, 0)
  | .ok resp =>
  let scored : Except PyErr (PRVal × UserData) :=
    if useStructuredOutput then
      match resp with
      | .parsedObj fields _ =>
        let ts := env.clock.localIso ++ "Z"
        let withTs := dictSet fields "evaluation_timestamp" (.jstr ts)
        if strTruthy username && strTruthy userId && natIdTruthy cacheSaved.2 &&
           natIdTruthy jh.2 && natIdTruthy rh.2 then
          match env.saveAnalysisWrite with
          | .error e => .error e
          | .ok _ =>
            .ok (.structured withTs,
              (saveAnalysisResult cacheSaved.1 cacheSaved.2 jh.2 rh.2 withTs
                env.clock.localIso).1)
        else .ok (.structured withTs, cacheSaved.1)
      | .unparsable raw => .ok (.raw raw, cacheSaved.1)
    else
      let resultText := resp.text
      if strTruthy username && strTruthy userId && natIdTruthy cacheSaved.2 &&
         natIdTruthy jh.2 && natIdTruthy rh.2 then
        match env.saveAnalysisWrite with
        | .error e => .error e
        | .ok _ =>
          .ok (.text resultText,
            (saveAnalysisResult cacheSaved.1 cacheSaved.2 jh.2 rh.2
              [("text_result", .jstr resultText)] env.clock.localIso).1)
      else .ok (.text resultText, cacheSaved.1)
  match scored with
  | .error e => (.error e, cacheSaved.1, 0)
  | .ok res => (.ok res.1, res.2, if env.deleteResumeOk then 2 else 1)

/-- process_resume: run the body under the outer `try`; any caught
exception becomes the tagged `(resume_path, f"Error: {e}")` pair. -/
def processResume (env : Env) (resumePath jdFilePath : String)
    (username : Option String) (useStructuredOutput : Bool) : PRRun :=
  match processResumeBody env resumePath jdFilePath username useStructuredOutput with
  | (.ok v, db, dels) => ⟨resumePath, .ok v, db, dels⟩
  | (.error e, db, dels) => ⟨resumePath, .errStr ("Error: " ++ e.message), db, dels⟩

/-- `len(resume_file_paths)`: the orchestrator's task total. -/
def totalCount (resumeFilePaths : List String) : Nat := resumeFilePaths.length

/-- update_progress: `completed_count += 1` under the progress lock. -/
def updateProgress (completedCount : Nat) : Nat := completedCount + 1

/-- The shared counter's value after `k` completion callbacks have run: the
lock serialises the callbacks, and each future fires its done-callback
exactly once. -/
def completedAfter : Nat → Nat
  | 0 => 0
  | k + 1 => updateProgress (completedAfter k)

/-- One iteration of the as_completed collection loop:
`results[resume_path] = result` for a finished future.  `envOf p` is the
oracle of the task submitted for path `p` (tasks submitted for the same
path share it, as their closures share every argument). -/
def collectOne (envOf : String → Env) (jdFilePath : String) (username : Option String)
    (useStructuredOutput : Bool) (acc : List (String × PRResult)) (p : String) :
    List (String × PRResult) :=
  let run := processResume (envOf p) p jdFilePath username useStructuredOutput
  dictSet acc run.path run.result

/-- analyze_bulk_resumes_parallel's result aggregation: one task per entry
of `resume_file_paths`, collected into the `results` dict as each future
completes.  `completionOrder` is the order in which as_completed yields the
futures — an arbitrary permutation of the submitted tasks, hence of the
input path list. -/
def analyzeBulkResumesParallel (envOf : String → Env) (jdFilePath : String)
    (username : Option String) (useStructuredOutput : Bool)
    (completionOrder : List String) : List (String × PRResult) :=
  completionOrder.foldl (collectOne envOf jdFilePath username useStructuredOutput) []

/-- Decidable equality of outcomes, to let witnesses evaluate runs. -/
instance {ε α : Type} [DecidableEq ε] [DecidableEq α] : DecidableEq (Except ε α) := fun x y =>
  match x, y with
  | .ok a, .ok b =>
    if h : a = b then isTrue (by rw [h])
    else isFalse (by intro hc; cases hc; exact h rfl)
  | .ok _, .error _ => isFalse (by intro hc; cases hc)
  | .error _, .ok _ => isFalse (by intro hc; cases hc)
  | .error e, .error f =>
    if h : e = f then isTrue (by rw [h])
    else isFalse (by intro hc; cases hc; exact h rfl)

/-- The key list of a results dict. -/
def mapKeys {α : Type} (m : List (String × α)) : List String := m.map Prod.fst

/-- The result the task submitted for path `p` delivers to the collection
loop. -/
def taskResult (envOf : String → Env) (jdFilePath : String) (username : Option String)
    (useStructuredOutput : Bool) (p : String) : PRResult :=
  (processResume (envOf p) p jdFilePath username useStructuredOutput).result

/-- A fixed sample clock on a machine half an hour east of UTC+5: local and
UTC renderings of the same instant differ. -/
def sampleClock : Clock := ⟨"2026-01-01T12:00:00", "2026-01-01T06:30:00"⟩

/-- A fully successful task oracle used by concrete runs. -/
def sampleEnv : Env where
  clock := sampleClock
  db := UserData.empty
  readResume := .ok ()
  readJd := .ok ()
  resumeUpload := fun _ => .ok "files/resume-remote"
  jdUpload := fun _ => .ok "files/jd-remote"
  cacheCreate := .ok "cachedContents/abc"
  score := .ok (.parsedObj
    [("candidate_name", .jstr "Ada"), ("overall_fit_score", .jnum 88),
     ("recommendation", .jstr "APPROVED")] "{}")
  saveAnalysisWrite := .ok ()
  deleteResumeOk := true
  deleteJdOk := true

/-- The id invariant every reachable user blob satisfies: each of the four
append-only lists carries exactly the ids 1..n in order. -/
def idsOk (d : UserData) : Prop :=
  d.files.map FileRecord.id = List.range' 1 d.files.length ∧
  d.caches.map CacheRecord.id = List.range' 1 d.caches.length ∧
  d.analysisResults.map AnalysisRecord.id = List.range' 1 d.analysisResults.length ∧
  d.batchJobs.map BatchRecord.id = List.range' 1 d.batchJobs.length

/-- A task oracle whose scoring call raises. -/
def envScoreFail : Env := { sampleEnv with score := .error (.otherError "boom") }

/-- A task oracle whose scoring response is not valid JSON. -/
def envUnparsable : Env := { sampleEnv with score := .ok (.unparsable "NOT-JSON") }

/-- A task oracle whose post-score save_analysis_result transaction fails
(psycopg2 error, rolled back and re-raised). -/
def envStoreFail : Env := { sampleEnv with saveAnalysisWrite := .error (.otherError "db down") }

/-- A concrete reachable user blob: one saved file record followed by one
saved analysis record. -/
def sampleUserData : UserData :=
  (saveAnalysisResult
    (saveFileRecord UserData.empty "resume.pdf" "resume.pdf" "pdf" "application/pdf"
      (some "files/g1") "t0").1
    none none none [("overall_fit_score", .jnum 80)] "t1").1

/- ### Helper lemmas -/

theorem processResume_path (env : Env) (rp jp : String) (u : Option String) (st : Bool) :
    (processResume env rp jp u st).path = rp := by
  rcases h : processResumeBody env rp jp u st with ⟨res, db, dels⟩
  cases res <;> simp [processResume, h]

theorem mapKeys_nil {α : Type} : mapKeys ([] : List (String × α)) = [] := rfl

theorem mapKeys_cons {α : Type} (p : String × α) (m : List (String × α)) :
    mapKeys (p :: m) = p.1 :: mapKeys m := rfl

theorem dictGet_dictSet_self {α : Type} (m : List (String × α)) (k : String) (v : α) :
    dictGet (dictSet m k v) k = some v := by
  induction m with
  | nil => simp [dictGet, dictSet]
  | cons hd tl ih =>
    obtain ⟨k0, v0⟩ := hd
    by_cases h : k0 = k
    · simp [dictSet, dictGet, h]
    · simpa [dictSet, dictGet, h] using ih

theorem dictGet_dictSet_ne {α : Type} (m : List (String × α)) (k k' : String) (v : α)
    (h : k' ≠ k) : dictGet (dictSet m k v) k' = dictGet m k' := by
  have h' : ¬ k = k' := fun hk => h hk.symm
  induction m with
  | nil => simp [dictGet, dictSet, h']
  | cons hd tl ih =>
    obtain ⟨k0, v0⟩ := hd
    by_cases hk : k0 = k
    · subst hk
      simp [dictSet, dictGet, h']
    · simp [dictSet, dictGet, hk, ih]

theorem mem_mapKeys_dictSet {α : Type} (m : List (String × α)) (k a : String) (v : α) :
    a ∈ mapKeys (dictSet m k v) ↔ a = k ∨ a ∈ mapKeys m := by
  induction m with
  | nil => simp [dictSet, mapKeys_cons, mapKeys_nil]
  | cons hd tl ih =>
    obtain ⟨k0, v0⟩ := hd
    by_cases h : k0 = k
    · subst h
      rw [show dictSet ((k0, v0) :: tl) k0 v = (k0, v) :: tl from by simp [dictSet]]
      simp only [mapKeys_cons, List.mem_cons]
      tauto
    · rw [show dictSet ((k0, v0) :: tl) k v = (k0, v0) :: dictSet tl k v from by
        simp [dictSet, h]]
      simp only [mapKeys_cons, List.mem_cons]
      rw [ih]
      tauto

theorem nodup_mapKeys_dictSet {α : Type} (m : List (String × α)) (k : String) (v : α)
    (h : (mapKeys m).Nodup) : (mapKeys (dictSet m k v)).Nodup := by
  induction m with
  | nil => simp [dictSet, mapKeys_cons, mapKeys_nil]
  | cons hd tl ih =>
    obtain ⟨k0, v0⟩ := hd
    rw [mapKeys_cons, List.nodup_cons] at h
    by_cases hk : k0 = k
    · subst hk
      rw [dictSet, if_pos rfl, mapKeys_cons, List.nodup_cons]
      exact h
    · rw [dictSet, if_neg hk, mapKeys_cons, List.nodup_cons]
      refine ⟨?_, ih h.2⟩
      intro hmem
      rcases (mem_mapKeys_dictSet tl k k0 v).mp hmem with h1 | h1
      · exact hk h1
      · exact h.1 h1

theorem collectOne_eq (envOf : String → Env) (jd : String) (u : Option String) (st : Bool)
    (acc : List (String × PRResult)) (p : String) :
    collectOne envOf jd u st acc p = dictSet acc p (taskResult envOf jd u st p) := by
  simp only [collectOne, taskResult, processResume_path]

theorem bulk_mem_keys (envOf : String → Env) (jd : String) (u : Option String) (st : Bool)
    (order : List String) (acc : List (String × PRResult)) (a : String) :
    a ∈ mapKeys (order.foldl (collectOne envOf jd u st) acc) ↔
      a ∈ order ∨ a ∈ mapKeys acc := by
  induction order generalizing acc with
  | nil => simp
  | cons p rest ih =>
    simp only [List.foldl_cons, List.mem_cons]
    rw [ih, collectOne_eq, mem_mapKeys_dictSet]
    tauto

theorem bulk_nodup_keys (envOf : String → Env) (jd : String) (u : Option String) (st : Bool)
    (order : List String) (acc : List (String × PRResult)) (h : (mapKeys acc).Nodup) :
    (mapKeys (order.foldl (collectOne envOf jd u st) acc)).Nodup := by
  induction order generalizing acc with
  | nil => simpa
  | cons p rest ih =>
    simp only [List.foldl_cons]
    apply ih
    rw [collectOne_eq]
    exact nodup_mapKeys_dictSet acc p _ h

theorem bulk_find (envOf : String → Env) (jd : String) (u : Option String) (st : Bool)
    (order : List String) (acc : List (String × PRResult)) (a : String)
    (h : a ∈ order ∨ dictGet acc a = some (taskResult envOf jd u st a)) :
    dictGet (order.foldl (collectOne envOf jd u st) acc) a
      = some (taskResult envOf jd u st a) := by
  induction order generalizing acc with
  | nil =>
    rcases h with h | h
    · cases h
    · simpa using h
  | cons p rest ih =>
    simp only [List.foldl_cons]
    apply ih
    by_cases hmem : a ∈ rest
    · exact Or.inl hmem
    · right
      rw [collectOne_eq]
      by_cases hap : a = p
      · subst hap
        rw [dictGet_dictSet_self]
      · rw [dictGet_dictSet_ne acc p a _ hap]
        rcases h with h | h
        · rcases List.mem_cons.mp h with h1 | h1
          · exact absurd h1 hap
          · exact absurd h1 hmem
        · exact h

theorem maxId_nil : maxId [] = 0 := rfl

theorem maxId_cons (a : Nat) (l : List Nat) : maxId (a :: l) = max a (maxId l) := rfl

theorem maxId_append (l : List Nat) (x : Nat) : maxId (l ++ [x]) = max (maxId l) x := by
  induction l with
  | nil => simp [maxId_nil, maxId_cons]
  | cons hd tl ih =>
    rw [List.cons_append, maxId_cons, ih, maxId_cons]
    exact (Nat.max_assoc hd (maxId tl) x).symm

theorem range'_one_concat (n : Nat) :
    List.range' 1 (n + 1) = List.range' 1 n ++ [n + 1] := by
  have h : List.range' 1 (n + 1) 1 = List.range' 1 n 1 ++ [1 + 1 * n] :=
    List.range'_concat 1 n
  simpa [Nat.add_comm] using h

theorem maxId_range' (n : Nat) : maxId (List.range' 1 n) = n := by
  induction n with
  | zero => simp [maxId]
  | succ k ih =>
    rw [range'_one_concat, maxId_append, ih]
    omega

theorem updateJobs_map_id (jobId : Nat) (js : String) (ca : Option String) (now : String)
    (l : List BatchRecord) :
    (updateJobs jobId js ca now l).map BatchRecord.id = l.map BatchRecord.id := by
  induction l with
  | nil => simp [updateJobs]
  | cons hd tl ih =>
    by_cases h : hd.id = jobId
    · simp [updateJobs, h]
    · simp [updateJobs, h, ih]

theorem reachable_idsOk (d : UserData) (h : Reachable d) : idsOk d := by
  induction h with
  | init => simp [idsOk, UserData.empty]
  | file d fn fp ft mt now gid _ ih =>
    obtain ⟨h1, h2, h3, h4⟩ := ih
    refine ⟨?_, h2, h3, h4⟩
    simp [saveFileRecord, h1, range'_one_concat]
  | cache d cn dn now jfid rfid ttl _ ih =>
    obtain ⟨h1, h2, h3, h4⟩ := ih
    refine ⟨h1, ?_, h3, h4⟩
    simp [saveCacheRecord, h2, range'_one_concat]
  | analysis d cid jfid rfid rj now _ ih =>
    obtain ⟨h1, h2, h3, h4⟩ := ih
    refine ⟨h1, h2, ?_, h4⟩
    simp [saveAnalysisResult, h3, range'_one_concat]
  | batch d jn js nr now _ ih =>
    obtain ⟨h1, h2, h3, h4⟩ := ih
    refine ⟨h1, h2, h3, ?_⟩
    simp [saveBatchJob, h4, range'_one_concat]
  | upd d jobId js ca now _ ih =>
    obtain ⟨h1, h2, h3, h4⟩ := ih
    refine ⟨h1, h2, h3, ?_⟩
    have hmap := updateJobs_map_id jobId js ca now d.batchJobs
    have hlen : (updateJobs jobId js ca now d.batchJobs).length = d.batchJobs.length := by
      simpa using congrArg List.length hmap
    simp only [updateBatchJobStatus]
    rw [hmap, hlen, h4]

/- ### Claim C7: upload retry policy -/

/-- C7: the document-upload retry facade performs at most 3 attempts; the
waits slept between attempts follow the exponential schedule
`wait_exponential(multiplier=1, min=4, max=10)` evaluated at the failed
attempt's 1-based number, so every wait lies in [4, 10]; every attempt
before the last one failed with a transient connection error (only
transient kinds are retried); and a non-transient error raised on any
attempt propagates immediately, ending the run at that attempt. -/
theorem upload_retry_policy {α : Type} (outcomes : Nat → Except PyErr α) :
    1 ≤ (uploadFileWithRetry outcomes).2.1 ∧
    (uploadFileWithRetry outcomes).2.1 ≤ 3 ∧
    (uploadFileWithRetry outcomes).2.2
      = (List.range' 1 ((uploadFileWithRetry outcomes).2.1 - 1)).map (tenacityWait 1 4 10) ∧
    (∀ w ∈ (uploadFileWithRetry outcomes).2.2, 4 ≤ w ∧ w ≤ 10) ∧
    (∀ i, i + 1 < (uploadFileWithRetry outcomes).2.1 →
      ∃ e, outcomes i = .error e ∧ e.isTransient = true) ∧
    (∀ i e, i < 3 → outcomes i = .error e → e.isTransient = false →
      (∀ j, j < i → ∃ e', outcomes j = .error e' ∧ e'.isTransient = true) →
      (uploadFileWithRetry outcomes).1 = .error e ∧
        (uploadFileWithRetry outcomes).2.1 = i + 1) := by
  cases h0 : outcomes 0 with
  | ok a =>
    have hval : uploadFileWithRetry outcomes = (.ok a, 1, []) := by
      simp [uploadFileWithRetry, retryLoop, h0]
    simp only [hval]
    refine ⟨by omega, by omega, by simp, by simp, by intro i hi; omega, ?_⟩
    intro i e hi3 hie hnt hpre
    cases i with
    | zero => rw [h0] at hie; cases hie
    | succ m =>
      obtain ⟨e', he', _⟩ := hpre 0 (by omega)
      rw [h0] at he'; cases he'
  | error e0 =>
    cases he0 : e0.isTransient with
    | false =>
      have hval : uploadFileWithRetry outcomes = (.error e0, 1, []) := by
        simp [uploadFileWithRetry, retryLoop, h0, he0]
      simp only [hval]
      refine ⟨by omega, by omega, by simp, by simp, by intro i hi; omega, ?_⟩
      intro i e hi3 hie hnt hpre
      cases i with
      | zero => rw [h0] at hie; cases hie; exact ⟨rfl, rfl⟩
      | succ m =>
        obtain ⟨e', he', ht'⟩ := hpre 0 (by omega)
        rw [h0] at he'; cases he'
        rw [he0] at ht'; cases ht'
    | true =>
      cases h1 : outcomes 1 with
      | ok a =>
        have hval : uploadFileWithRetry outcomes = (.ok a, 2, [tenacityWait 1 4 10 1]) := by
          simp [uploadFileWithRetry, retryLoop, h0, he0, h1]
        simp only [hval]
        refine ⟨by omega, by omega, by decide, by decide, ?_, ?_⟩
        · intro i hi
          have : i = 0 := by omega
          subst this
          exact ⟨e0, h0, he0⟩
        · intro i e hi3 hie hnt hpre
          cases i with
          | zero => rw [h0] at hie; cases hie; rw [he0] at hnt; cases hnt
          | succ m =>
            cases m with
            | zero => rw [h1] at hie; cases hie
            | succ m' =>
              obtain ⟨e', he', _⟩ := hpre 1 (by omega)
              rw [h1] at he'; cases he'
      | error e1 =>
        cases he1 : e1.isTransient with
        | false =>
          have hval : uploadFileWithRetry outcomes
              = (.error e1, 2, [tenacityWait 1 4 10 1]) := by
            simp [uploadFileWithRetry, retryLoop, h0, he0, h1, he1]
          simp only [hval]
          refine ⟨by omega, by omega, by decide, by decide, ?_, ?_⟩
          · intro i hi
            have : i = 0 := by omega
            subst this
            exact ⟨e0, h0, he0⟩
          · intro i e hi3 hie hnt hpre
            cases i with
            | zero => rw [h0] at hie; cases hie; rw [he0] at hnt; cases hnt
            | succ m =>
              cases m with
              | zero => rw [h1] at hie; cases hie; exact ⟨rfl, rfl⟩
              | succ m' =>
                obtain ⟨e', he', ht'⟩ := hpre 1 (by omega)
                rw [h1] at he'; cases he'
                rw [he1] at ht'; cases ht'
        | true =>
          have hval : uploadFileWithRetry outcomes
              = (outcomes 2, 3, [tenacityWait 1 4 10 1, tenacityWait 1 4 10 2]) := by
            simp [uploadFileWithRetry, retryLoop, h0, he0, h1, he1]
          simp only [hval]
          refine ⟨by omega, by omega, by decide, by decide, ?_, ?_⟩
          · intro i hi
            have : i = 0 ∨ i = 1 := by omega
            rcases this with h | h <;> subst h
            · exact ⟨e0, h0, he0⟩
            · exact ⟨e1, h1, he1⟩
          · intro i e hi3 hie hnt hpre
            cases i with
            | zero => rw [h0] at hie; cases hie; rw [he0] at hnt; cases hnt
            | succ m =>
              cases m with
              | zero => rw [h1] at hie; cases hie; rw [he1] at hnt; cases hnt
              | succ m' =>
                have : m' = 0 := by omega
                subst this
                exact ⟨hie, rfl⟩

/-- Witness for C7: a non-transient error on the first attempt propagates
immediately, after exactly one attempt and no waits. -/
theorem upload_retry_policy_witness :
    (uploadFileWithRetry (fun _ => (.error (.otherError "boom") : Except PyErr String))).1
        = .error (.otherError "boom") ∧
    (uploadFileWithRetry (fun _ => (.error (.otherError "boom") : Except PyErr String))).2.1
        = 1 :=
  (upload_retry_policy (fun _ => (.error (.otherError "boom") : Except PyErr String))).2.2.2.2.2
    0 (.otherError "boom") (by omega) rfl rfl (by intro j hj; omega)

/- ### Claim C6: progress counter -/

/-- C6: the shared completion counter, whose callbacks the
mutual-exclusion lock serialises, advances by exactly one `updateProgress`
step per task completion: after `k` of the `total_count` completions it
reads exactly `k`, it never exceeds the total, and it equals the total
exactly when all tasks have completed. -/
theorem progress_counter_exact (resumeFilePaths : List String) (k : Nat)
    (hk : k ≤ totalCount resumeFilePaths) :
    completedAfter k = k ∧
    completedAfter (k + 1) = updateProgress (completedAfter k) ∧
    completedAfter (k + 1) = completedAfter k + 1 ∧
    completedAfter k ≤ totalCount resumeFilePaths ∧
    (completedAfter k = totalCount resumeFilePaths ↔ k = totalCount resumeFilePaths) := by
  have hall : ∀ n, completedAfter n = n := by
    intro n
    induction n with
    | zero => rfl
    | succ m ih => simp [completedAfter, updateProgress, ih]
  refine ⟨hall k, rfl, ?_, ?_, ?_⟩
  · rw [hall k, hall (k + 1)]
  · rw [hall k]; exact hk
  · rw [hall k]

/-- Witness for C6 on a concrete two-task batch after both completions. -/
theorem progress_counter_exact_witness :
    completedAfter 2 = 2 ∧
    (completedAfter 2 = totalCount ["a.pdf", "b.pdf"] ↔ 2 = totalCount ["a.pdf", "b.pdf"]) := by
  have h := progress_counter_exact ["a.pdf", "b.pdf"] 2 (by decide)
  exact ⟨h.1, h.2.2.2.2⟩

/- ### Claim C9: sequential id assignment -/

/-- C9: on every user blob this repository can produce, each save
operation assigns the new record the maximum existing id in its list plus
one (the source computes `len + 1`, which coincides on reachable blobs),
and since records are never deleted the ids in each of the four persisted
lists are strictly increasing in append order. -/
theorem sequential_id_assignment (d : UserData) (h : Reachable d) :
    (∀ fn fp ft mt gid now, (saveFileRecord d fn fp ft mt gid now).2
        = maxId (d.files.map FileRecord.id) + 1) ∧
    (∀ cn dn jfid rfid ttl now, (saveCacheRecord d cn dn jfid rfid ttl now).2
        = maxId (d.caches.map CacheRecord.id) + 1) ∧
    (∀ cid jfid rfid rj now, (saveAnalysisResult d cid jfid rfid rj now).2
        = maxId (d.analysisResults.map AnalysisRecord.id) + 1) ∧
    (∀ jn js nr now, (saveBatchJob d jn js nr now).2
        = maxId (d.batchJobs.map BatchRecord.id) + 1) ∧
    (d.files.map FileRecord.id).Pairwise (· < ·) ∧
    (d.caches.map CacheRecord.id).Pairwise (· < ·) ∧
    (d.analysisResults.map AnalysisRecord.id).Pairwise (· < ·) ∧
    (d.batchJobs.map BatchRecord.id).Pairwise (· < ·) := by
  obtain ⟨h1, h2, h3, h4⟩ := reachable_idsOk d h
  refine ⟨?_, ?_, ?_, ?_, ?_, ?_, ?_, ?_⟩
  · intro fn fp ft mt gid now
    have hm : maxId (d.files.map FileRecord.id) = d.files.length := by
      rw [h1]; exact maxId_range' d.files.length
    simp [saveFileRecord, hm]
  · intro cn dn jfid rfid ttl now
    have hm : maxId (d.caches.map CacheRecord.id) = d.caches.length := by
      rw [h2]; exact maxId_range' d.caches.length
    simp [saveCacheRecord, hm]
  · intro cid jfid rfid rj now
    have hm : maxId (d.analysisResults.map AnalysisRecord.id) = d.analysisResults.length := by
      rw [h3]; exact maxId_range' d.analysisResults.length
    simp [saveAnalysisResult, hm]
  · intro jn js nr now
    have hm : maxId (d.batchJobs.map BatchRecord.id) = d.batchJobs.length := by
      rw [h4]; exact maxId_range' d.batchJobs.length
    simp [saveBatchJob, hm]
  · rw [h1]; exact List.pairwise_lt_range' 1 d.files.length
  · rw [h2]; exact List.pairwise_lt_range' 1 d.caches.length
  · rw [h3]; exact List.pairwise_lt_range' 1 d.analysisResults.length
  · rw [h4]; exact List.pairwise_lt_range' 1 d.batchJobs.length

/-- Witness for C9 on the concrete reachable blob. -/
theorem sequential_id_assignment_witness :
    (saveFileRecord sampleUserData "jd.pdf" "jd.pdf" "pdf" "application/pdf" none "t2").2
        = maxId (sampleUserData.files.map FileRecord.id) + 1 ∧
    (sampleUserData.analysisResults.map AnalysisRecord.id).Pairwise (· < ·) := by
  have hr : Reachable sampleUserData :=
    Reachable.analysis _ none none none [("overall_fit_score", .jnum 80)] "t1"
      (Reachable.file _ "resume.pdf" "resume.pdf" "pdf" "application/pdf" "t0"
        (some "files/g1") Reachable.init)
  have h := sequential_id_assignment sampleUserData hr
  exact ⟨h.1 "jd.pdf" "jd.pdf" "pdf" "application/pdf" none "t2", h.2.2.2.2.2.2.1⟩

/- ### Orchestrator key-set lemma shared by C1 and C10 -/

theorem bulk_keys_perm_dedup (envOf : String → Env) (jd : String) (u : Option String)
    (st : Bool) (resumeFilePaths completionOrder : List String)
    (hperm : completionOrder.Perm resumeFilePaths) :
    (mapKeys (analyzeBulkResumesParallel envOf jd u st completionOrder)).Perm
      resumeFilePaths.dedup := by
  have hnodup : (mapKeys (analyzeBulkResumesParallel envOf jd u st completionOrder)).Nodup := by
    rw [analyzeBulkResumesParallel]
    exact bulk_nodup_keys envOf jd u st completionOrder [] (by simp [mapKeys])
  rw [List.perm_ext_iff_of_nodup hnodup (List.nodup_dedup _)]
  intro a
  rw [analyzeBulkResumesParallel, bulk_mem_keys, List.mem_dedup]
  simp [hperm.mem_iff, mapKeys_nil]

/- ### Claim C10: key set equals distinct input paths -/

/-- C10: the key set of the orchestrator's output map equals the set of
distinct input resume paths: a path is a key exactly when it occurs in the
input, keys are duplicate-free, the map's size is the number of distinct
input paths, and an empty input yields an empty map. -/
theorem bulk_key_set_distinct (envOf : String → Env) (jd : String) (u : Option String)
    (st : Bool) (resumeFilePaths completionOrder : List String)
    (hperm : completionOrder.Perm resumeFilePaths) :
    (∀ p, p ∈ mapKeys (analyzeBulkResumesParallel envOf jd u st completionOrder)
        ↔ p ∈ resumeFilePaths) ∧
    (mapKeys (analyzeBulkResumesParallel envOf jd u st completionOrder)).Nodup ∧
    (analyzeBulkResumesParallel envOf jd u st completionOrder).length
        = resumeFilePaths.dedup.length ∧
    (resumeFilePaths = [] → analyzeBulkResumesParallel envOf jd u st completionOrder = []) := by
  refine ⟨?_, ?_, ?_, ?_⟩
  · intro p
    rw [analyzeBulkResumesParallel, bulk_mem_keys]
    simp [hperm.mem_iff, mapKeys_nil]
  · rw [analyzeBulkResumesParallel]
    exact bulk_nodup_keys envOf jd u st completionOrder [] (by simp [mapKeys])
  · have hlen := (bulk_keys_perm_dedup envOf jd u st resumeFilePaths completionOrder
      hperm).length_eq
    simpa [mapKeys] using hlen
  · intro h
    subst h
    have : completionOrder = [] := hperm.eq_nil
    subst this
    rfl

/-- Witness for C10 on a concrete input with a duplicated path and an
out-of-submission-order completion sequence. -/
theorem bulk_key_set_distinct_witness :
    (analyzeBulkResumesParallel (fun _ => sampleEnv) "jd.pdf" (some "alice") true
        ["b.pdf", "a.pdf", "a.pdf"]).length
      = (["a.pdf", "b.pdf", "a.pdf"].dedup).length := by
  have h := (bulk_key_set_distinct (fun _ => sampleEnv) "jd.pdf" (some "alice") true
    ["a.pdf", "b.pdf", "a.pdf"] ["b.pdf", "a.pdf", "a.pdf"] (by decide)).2.2.1
  exact h

/- ### Claim C1: output cardinality -/

/-- Counterexample to C1 as stated: the cardinality invariant
`|output| == |input resumes|` fails when the input list repeats a path —
two submissions of a.pdf collapse onto one dict key, so the output has 1
entry for 2 inputs. -/
theorem bulk_cardinality_duplicate_counterexample :
    (analyzeBulkResumesParallel (fun _ => sampleEnv) "jd.pdf" (some "alice") true
        ["a.pdf", "a.pdf"]).length = 1 ∧
    ["a.pdf", "a.pdf"].length = 2 ∧
    (analyzeBulkResumesParallel (fun _ => sampleEnv) "jd.pdf" (some "alice") true
        ["a.pdf", "a.pdf"]).length ≠ ["a.pdf", "a.pdf"].length := by
  refine ⟨by decide, rfl, by decide⟩

/-- C1 (amended): the orchestrator's output map has exactly one entry per
distinct input resume path; in particular, whenever the N input paths are
pairwise distinct, the output map has exactly N keys, one per input path,
regardless of how many underlying analyses fail. -/
theorem bulk_cardinality_of_nodup (envOf : String → Env) (jd : String) (u : Option String)
    (st : Bool) (resumeFilePaths completionOrder : List String)
    (hperm : completionOrder.Perm resumeFilePaths) (hnd : resumeFilePaths.Nodup) :
    (analyzeBulkResumesParallel envOf jd u st completionOrder).length
        = resumeFilePaths.length ∧
    (∀ p ∈ resumeFilePaths,
      dictGet (analyzeBulkResumesParallel envOf jd u st completionOrder) p
        = some (taskResult envOf jd u st p)) := by
  constructor
  · have hlen := (bulk_keys_perm_dedup envOf jd u st resumeFilePaths completionOrder
      hperm).length_eq
    rw [List.dedup_eq_self.mpr hnd] at hlen
    simpa [mapKeys] using hlen
  · intro p hp
    rw [analyzeBulkResumesParallel]
    exact bulk_find envOf jd u st completionOrder [] p (Or.inl (hperm.mem_iff.mpr hp))

/-- Witness for C1 (amended) on two distinct paths completing in reverse
order. -/
theorem bulk_cardinality_of_nodup_witness :
    (analyzeBulkResumesParallel (fun _ => sampleEnv) "jd.pdf" (some "alice") true
        ["b.pdf", "a.pdf"]).length = 2 := by
  exact (bulk_cardinality_of_nodup (fun _ => sampleEnv) "jd.pdf" (some "alice") true
    ["a.pdf", "b.pdf"] ["b.pdf", "a.pdf"] (by decide) (by decide)).1

/- ### Claim C8: unsupported format rejection -/

/-- C8: a resume path whose extension is not pdf or docx produces, in the
orchestrator's output map, a present per-item error entry whose message
contains "Unsupported file type" — not a thrown exception and not an
aborted batch. -/
theorem unsupported_format_per_item_error (envOf : String → Env) (jd : String)
    (u : Option String) (st : Bool) (completionOrder : List String) (rp : String)
    (hmem : rp ∈ completionOrder)
    (hbad : allowedSuffix (pathSuffix rp) = false) :
    dictGet (analyzeBulkResumesParallel envOf jd u st completionOrder) rp
        = some (.errStr ("Error: " ++ unsupportedMsg (pathSuffix rp))) ∧
    (∃ pre post, "Error: " ++ unsupportedMsg (pathSuffix rp)
        = pre ++ "Unsupported file type" ++ post) := by
  constructor
  · have htask : taskResult envOf jd u st rp
        = .errStr ("Error: " ++ unsupportedMsg (pathSuffix rp)) := by
      simp [taskResult, processResume, processResumeBody, validateFileType, hbad,
        PyErr.message]
    rw [analyzeBulkResumesParallel,
      bulk_find envOf jd u st completionOrder [] rp (Or.inl hmem), htask]
  · refine ⟨"Error: ", ": " ++ pathSuffix rp ++ ". Only PDF and DOCX are supported.", ?_⟩
    rw [unsupportedMsg]
    rw [show ("Unsupported file type: " : String) = "Unsupported file type" ++ ": " from
      by decide]
    simp only [String.append_assoc]

/-- Witness for C8: a .txt resume in a two-item batch gets a present error
entry with the unsupported-file-type message. -/
theorem unsupported_format_per_item_error_witness :
    dictGet (analyzeBulkResumesParallel (fun _ => sampleEnv) "jd.pdf" (some "alice") true
        ["resume.txt", "ok.pdf"]) "resume.txt"
      = some (.errStr "Error: Unsupported file type: .txt. Only PDF and DOCX are supported.") := by
  have h := (unsupported_format_per_item_error (fun _ => sampleEnv) "jd.pdf" (some "alice")
    true ["resume.txt", "ok.pdf"] "resume.txt" (by decide) (by decide)).1
  rw [h]
  decide

/- ### Claim C3: every failure becomes a tagged error value -/

/-- C3: process_resume always returns a pair tagged with its own resume
path; when its body raises, the caught exception surfaces as exactly
"Error: " followed by the exception message; every error string in its
output arises that way; and a success value passes through unchanged — no
exception ever escapes to the orchestrator. -/
theorem process_resume_tags_all_failures (env : Env) (rp jp : String)
    (u : Option String) (st : Bool) :
    (processResume env rp jp u st).path = rp ∧
    (∀ e, (processResumeBody env rp jp u st).1 = .error e →
      (processResume env rp jp u st).result = .errStr ("Error: " ++ e.message)) ∧
    (∀ msg, (processResume env rp jp u st).result = .errStr msg →
      ∃ e, (processResumeBody env rp jp u st).1 = .error e ∧
        msg = "Error: " ++ e.message) ∧
    (∀ v, (processResume env rp jp u st).result = .ok v →
      (processResumeBody env rp jp u st).1 = .ok v) := by
  rcases hb : processResumeBody env rp jp u st with ⟨res, db, dels⟩
  cases res with
  | ok v =>
    refine ⟨by simp [processResume, hb], ?_, ?_, ?_⟩
    · intro e he
      simp at he
    · intro msg hm
      simp [processResume, hb] at hm
    · intro v' hv
      simp [processResume, hb] at hv
      simp [hv]
  | error e0 =>
    refine ⟨by simp [processResume, hb], ?_, ?_, ?_⟩
    · intro e he
      simp at he
      subst he
      simp [processResume, hb]
    · intro msg hm
      simp [processResume, hb] at hm
      exact ⟨e0, by simp, hm.symm⟩
    · intro v hv
      simp [processResume, hb] at hv

/-- Witness for C3: a scoring failure surfaces as the tagged pair
(resume path, "Error: boom"). -/
theorem process_resume_tags_all_failures_witness :
    (processResume envScoreFail "resume.pdf" "jd.pdf" (some "alice") true).path
        = "resume.pdf" ∧
    (processResume envScoreFail "resume.pdf" "jd.pdf" (some "alice") true).result
        = .errStr "Error: boom" := by
  have h := process_resume_tags_all_failures envScoreFail "resume.pdf" "jd.pdf"
    (some "alice") true
  refine ⟨h.1, ?_⟩
  have h2 := h.2.1 (.otherError "boom") (by decide)
  rw [h2]
  decide

/- ### Reduction helpers for the single-pair analyzer -/

theorem fileType_ne_of_allowed (s : String) (h : allowedSuffix s = true) :
    dropDot (lowerStr s) ≠ "" := by
  have h' : lowerStr s = ".pdf" ∨ lowerStr s = ".docx" := by
    simpa [allowedSuffix] using h
  rcases h' with h2 | h2 <;> rw [h2] <;> decide

theorem lastComponent_ne_of_allowed (p : String) (h : allowedSuffix (pathSuffix p) = true) :
    lastComponent p ≠ "" := by
  intro h0
  have hsfx : pathSuffix p = "" := by
    simp [pathSuffix, h0, lastDotIdx]
  rw [hsfx] at h
  exact absurd h (by decide)

theorem uploadStep_analysisResults (attempts : Nat → Except PyErr String) (db : UserData)
    (u : Option String) (fn ft mt now : String) :
    (uploadStep attempts db u fn ft mt now).2.analysisResults = db.analysisResults := by
  cases h : (uploadFileWithRetry attempts).1 with
  | error e => simp [uploadStep, h]
  | ok handle =>
    simp only [uploadStep, h]
    split_ifs <;> simp [saveFileRecord]

theorem uploadStep_caches (attempts : Nat → Except PyErr String) (db : UserData)
    (u : Option String) (fn ft mt now : String) :
    (uploadStep attempts db u fn ft mt now).2.caches = db.caches := by
  cases h : (uploadFileWithRetry attempts).1 with
  | error e => simp [uploadStep, h]
  | ok handle =>
    simp only [uploadStep, h]
    split_ifs <;> simp [saveFileRecord]

/- ### Claim C2: handle release semantics -/

/-- Counterexample to C2 as stated: after both documents upload
successfully, a scoring failure is caught by the analyzer's outer handler
before the cleanup code runs, so `client.files.delete` is invoked zero
times — not twice — on that exit path. -/
theorem release_skipped_on_scoring_failure :
    (uploadFileWithRetry envScoreFail.resumeUpload).1 = .ok "files/resume-remote" ∧
    (uploadFileWithRetry envScoreFail.jdUpload).1 = .ok "files/jd-remote" ∧
    envScoreFail.score = .error (.otherError "boom") ∧
    (processResume envScoreFail "resume.pdf" "jd.pdf" (some "alice") true).deleteCalls = 0 ∧
    (processResume envScoreFail "resume.pdf" "jd.pdf" (some "alice") true).deleteCalls ≠ 2 := by
  refine ⟨by decide, by decide, rfl, by decide, by decide⟩

/-- C2 (amended): release of the two remote handles runs exactly on the
paths where the scoring call returns a response and the guarded post-score
persistence does not raise: there delete is invoked on the resume handle
and then the JD handle (twice in total when the first delete does not
itself raise, once otherwise), regardless of whether the response parses.
When the scoring call raises — or when save_analysis_result raises after
scoring returned (store failure, rolled back and re-raised) — the outer
exception handler returns the tagged error without invoking delete at
all. -/
theorem release_semantics (env : Env) (rp jp uname : String) (st : Bool)
    (rHandle jHandle cn : String)
    (havr : allowedSuffix (pathSuffix rp) = true)
    (havj : allowedSuffix (pathSuffix jp) = true)
    (hrr : env.readResume = .ok ())
    (hrj : env.readJd = .ok ())
    (hur : (uploadFileWithRetry env.resumeUpload).1 = .ok rHandle)
    (huj : (uploadFileWithRetry env.jdUpload).1 = .ok jHandle)
    (hcc : env.cacheCreate = .ok cn)
    (hu : uname ≠ "") :
    (∀ resp, env.score = .ok resp → env.saveAnalysisWrite = .ok () →
      (processResume env rp jp (some uname) st).deleteCalls
        = (if env.deleteResumeOk then 2 else 1)) ∧
    (∀ resp, env.score = .ok resp → env.saveAnalysisWrite = .ok () →
      env.deleteResumeOk = true →
      (processResume env rp jp (some uname) st).deleteCalls = 2) ∧
    (∀ e, env.score = .error e →
      (processResume env rp jp (some uname) st).deleteCalls = 0) ∧
    (∀ fields raw e, env.score = .ok (.parsedObj fields raw) →
      env.saveAnalysisWrite = .error e →
      (processResume env rp jp (some uname) true).deleteCalls = 0 ∧
      (processResume env rp jp (some uname) true).result
        = .errStr ("Error: " ++ e.message)) := by
  have hfn : (lastComponent rp != "") = true := by
    simpa [bne_iff_ne] using lastComponent_ne_of_allowed rp havr
  have hft : (dropDot (lowerStr (pathSuffix rp)) != "") = true := by
    simpa [bne_iff_ne] using fileType_ne_of_allowed (pathSuffix rp) havr
  have hjn : (lastComponent jp != "") = true := by
    simpa [bne_iff_ne] using lastComponent_ne_of_allowed jp havj
  have hjt : (dropDot (lowerStr (pathSuffix jp)) != "") = true := by
    simpa [bne_iff_ne] using fileType_ne_of_allowed (pathSuffix jp) havj
  have hun : ((uname : String) != "") = true := by
    simpa [bne_iff_ne] using hu
  refine ⟨?_, ?_, ?_, ?_⟩
  · intro resp hsc hsa
    cases st with
    | false =>
      simp [processResume, processResumeBody, validateFileType, havr, havj, hrr, hrj,
        uploadStep, hur, huj, hcc, hsc, hsa, strTruthy, natIdTruthy, hfn, hft, hjn,
        hjt, hun, saveFileRecord, saveCacheRecord, saveAnalysisResult]
    | true =>
      cases resp <;>
        simp [processResume, processResumeBody, validateFileType, havr, havj, hrr, hrj,
          uploadStep, hur, huj, hcc, hsc, hsa, strTruthy, natIdTruthy, hfn, hft, hjn,
          hjt, hun, saveFileRecord, saveCacheRecord, saveAnalysisResult]
  · intro resp hsc hsa hdel
    cases st with
    | false =>
      simp [processResume, processResumeBody, validateFileType, havr, havj, hrr, hrj,
        uploadStep, hur, huj, hcc, hsc, hsa, hdel, strTruthy, natIdTruthy, hfn, hft,
        hjn, hjt, hun, saveFileRecord, saveCacheRecord, saveAnalysisResult]
    | true =>
      cases resp <;>
        simp [processResume, processResumeBody, validateFileType, havr, havj, hrr, hrj,
          uploadStep, hur, huj, hcc, hsc, hsa, hdel, strTruthy, natIdTruthy, hfn, hft,
          hjn, hjt, hun, saveFileRecord, saveCacheRecord, saveAnalysisResult]
  · intro e hsc
    simp [processResume, processResumeBody, validateFileType, havr, havj, hrr, hrj,
      uploadStep, hur, huj, hcc, hsc]
  · intro fields raw e hsc hsa
    simp [processResume, processResumeBody, validateFileType, havr, havj, hrr, hrj,
      uploadStep, hur, huj, hcc, hsc, hsa, strTruthy, natIdTruthy, hfn, hft, hjn,
      hjt, hun, saveFileRecord, saveCacheRecord, saveAnalysisResult]

/-- Witness for C2 (amended): a fully successful run releases both handles
(delete invoked exactly twice), while a run whose post-score store write
fails releases neither. -/
theorem release_semantics_witness :
    (processResume sampleEnv "resume.pdf" "jd.pdf" (some "alice") true).deleteCalls = 2 ∧
    (processResume envStoreFail "resume.pdf" "jd.pdf" (some "alice") true).deleteCalls
        = 0 := by
  constructor
  · exact (release_semantics sampleEnv "resume.pdf" "jd.pdf" "alice" true
      "files/resume-remote" "files/jd-remote" "cachedContents/abc"
      (by decide) (by decide) rfl rfl (by decide) (by decide) rfl (by decide)).2.1
      (.parsedObj [("candidate_name", .jstr "Ada"), ("overall_fit_score", .jnum 88),
        ("recommendation", .jstr "APPROVED")] "{}") rfl rfl rfl
  · exact ((release_semantics envStoreFail "resume.pdf" "jd.pdf" "alice" true
      "files/resume-remote" "files/jd-remote" "cachedContents/abc"
      (by decide) (by decide) rfl rfl (by decide) (by decide) rfl (by decide)).2.2.2
      [("candidate_name", .jstr "Ada"), ("overall_fit_score", .jnum 88),
        ("recommendation", .jstr "APPROVED")] "{}" (.otherError "db down") rfl rfl).1

/- ### Claim C5: unparsable structured response -/

/-- Counterexample to C5 as stated: when the structured response fails to
parse, the analyzer returns the raw text but does NOT persist it — the
run's analysis-results list stays empty even though the pipeline reached
scoring with a truthy username (a cache record was saved). -/
theorem parse_failure_not_persisted :
    (processResume envUnparsable "resume.pdf" "jd.pdf" (some "alice") true).result
        = .ok (.raw "NOT-JSON") ∧
    (processResume envUnparsable "resume.pdf" "jd.pdf" (some "alice") true).db.caches ≠ [] ∧
    (processResume envUnparsable "resume.pdf" "jd.pdf" (some "alice") true).db.analysisResults
        = [] := by
  refine ⟨by decide, by decide, by decide⟩

/-- C5 (amended): when structured output is requested and the remote
response fails to parse as JSON, the analyzer returns the raw response
text as the result without raising (cleanup still runs), but it does not
persist anything for it — the analysis-results list is left exactly as it
was. -/
theorem parse_failure_raw_result (env : Env) (rp jp : String) (u : Option String)
    (raw rHandle jHandle cn : String)
    (havr : allowedSuffix (pathSuffix rp) = true)
    (havj : allowedSuffix (pathSuffix jp) = true)
    (hrr : env.readResume = .ok ())
    (hrj : env.readJd = .ok ())
    (hur : (uploadFileWithRetry env.resumeUpload).1 = .ok rHandle)
    (huj : (uploadFileWithRetry env.jdUpload).1 = .ok jHandle)
    (hcc : env.cacheCreate = .ok cn)
    (hscore : env.score = .ok (.unparsable raw)) :
    (processResume env rp jp u true).result = .ok (.raw raw) ∧
    (processResume env rp jp u true).db.analysisResults = env.db.analysisResults ∧
    (processResume env rp jp u true).deleteCalls
        = (if env.deleteResumeOk then 2 else 1) := by
  refine ⟨?_, ?_, ?_⟩
  · simp [processResume, processResumeBody, validateFileType, havr, havj, hrr, hrj,
      uploadStep, hur, huj, hcc, hscore]
  · simp only [processResume, processResumeBody, validateFileType, havr, havj, hrr, hrj,
      uploadStep, hur, huj, hcc, hscore]
    split_ifs <;> simp [saveCacheRecord, saveFileRecord]
  · simp [processResume, processResumeBody, validateFileType, havr, havj, hrr, hrj,
      uploadStep, hur, huj, hcc, hscore]

/-- Witness for C5 (amended): the concrete unparsable-response run returns
the raw text with nothing appended to the analysis results. -/
theorem parse_failure_raw_result_witness :
    (processResume envUnparsable "resume.pdf" "jd.pdf" (some "bob") true).result
        = .ok (.raw "NOT-JSON") ∧
    (processResume envUnparsable "resume.pdf" "jd.pdf" (some "bob") true).db.analysisResults
        = [] := by
  have h := parse_failure_raw_result envUnparsable "resume.pdf" "jd.pdf" (some "bob")
    "NOT-JSON" "files/resume-remote" "files/jd-remote" "cachedContents/abc"
    (by decide) (by decide) rfl rfl (by decide) (by decide) rfl rfl
  exact ⟨h.1, h.2.1.trans rfl⟩

/- ### Claim C4: timestamp injection and persistence -/

/-- Counterexample to C4 as stated: the injected `evaluation_timestamp` is
`datetime.now().isoformat() + "Z"` — the LOCAL clock rendering with a "Z"
appended — which differs from the ISO-8601 UTC rendering of the same
instant whenever the machine's timezone is not UTC. -/
theorem timestamp_is_local_not_utc :
    (processResume sampleEnv "resume.pdf" "jd.pdf" (some "alice") true).result
        = .ok (.structured
            [("candidate_name", .jstr "Ada"), ("overall_fit_score", .jnum 88),
             ("recommendation", .jstr "APPROVED"),
             ("evaluation_timestamp", .jstr "2026-01-01T12:00:00Z")]) ∧
    sampleEnv.clock.localIso ++ "Z" = "2026-01-01T12:00:00Z" ∧
    sampleEnv.clock.utcIso ++ "Z" = "2026-01-01T06:30:00Z" ∧
    ("2026-01-01T12:00:00Z" : String) ≠ "2026-01-01T06:30:00Z" := by
  refine ⟨by decide, by decide, by decide, by decide⟩

/-- C4 (amended): when structured output is requested and the response
parses, the analyzer injects `evaluation_timestamp` equal to the current
LOCAL time's ISO-8601 rendering with a literal "Z" appended (the source
uses `datetime.now()`, so the value is in UTC only when the machine's
timezone is UTC); the rest of the payload passes through unmodified; and,
when the store transaction commits (a psycopg2 failure would instead
escape to the outer handler), the result is persisted in one appended
analysis record carrying the derived score/recommendation pair extracted
from the payload. -/
theorem structured_result_injection (env : Env) (rp jp : String) (uname : String)
    (fields : JObj) (raw : String) (rHandle jHandle cn : String)
    (havr : allowedSuffix (pathSuffix rp) = true)
    (havj : allowedSuffix (pathSuffix jp) = true)
    (hrr : env.readResume = .ok ())
    (hrj : env.readJd = .ok ())
    (hur : (uploadFileWithRetry env.resumeUpload).1 = .ok rHandle)
    (huj : (uploadFileWithRetry env.jdUpload).1 = .ok jHandle)
    (hcc : env.cacheCreate = .ok cn)
    (hu : uname ≠ "")
    (hscore : env.score = .ok (.parsedObj fields raw))
    (hsa : env.saveAnalysisWrite = .ok ()) :
    (processResume env rp jp (some uname) true).result
        = .ok (.structured (dictSet fields "evaluation_timestamp"
            (.jstr (env.clock.localIso ++ "Z")))) ∧
    dictGet (dictSet fields "evaluation_timestamp" (.jstr (env.clock.localIso ++ "Z")))
        "evaluation_timestamp" = some (.jstr (env.clock.localIso ++ "Z")) ∧
    (∀ k, k ≠ "evaluation_timestamp" →
      dictGet (dictSet fields "evaluation_timestamp" (.jstr (env.clock.localIso ++ "Z"))) k
        = dictGet fields k) ∧
    (processResume env rp jp (some uname) true).db.analysisResults
        = env.db.analysisResults ++
          [⟨env.db.analysisResults.length + 1,
            some (env.db.caches.length + 1),
            some (env.db.files.length + 2),
            some (env.db.files.length + 1),
            dictSet fields "evaluation_timestamp" (.jstr (env.clock.localIso ++ "Z")),
            dictGet fields "overall_fit_score",
            dictGet fields "recommendation",
            env.clock.localIso⟩] := by
  have hfn : (lastComponent rp != "") = true := by
    simpa [bne_iff_ne] using lastComponent_ne_of_allowed rp havr
  have hft : (dropDot (lowerStr (pathSuffix rp)) != "") = true := by
    simpa [bne_iff_ne] using fileType_ne_of_allowed (pathSuffix rp) havr
  have hjn : (lastComponent jp != "") = true := by
    simpa [bne_iff_ne] using lastComponent_ne_of_allowed jp havj
  have hjt : (dropDot (lowerStr (pathSuffix jp)) != "") = true := by
    simpa [bne_iff_ne] using fileType_ne_of_allowed (pathSuffix jp) havj
  have hun : ((uname : String) != "") = true := by
    simpa [bne_iff_ne] using hu
  have hg1 : dictGet (dictSet fields "evaluation_timestamp"
        (.jstr (env.clock.localIso ++ "Z"))) "overall_fit_score"
      = dictGet fields "overall_fit_score" :=
    dictGet_dictSet_ne fields "evaluation_timestamp" "overall_fit_score" _ (by decide)
  have hg2 : dictGet (dictSet fields "evaluation_timestamp"
        (.jstr (env.clock.localIso ++ "Z"))) "recommendation"
      = dictGet fields "recommendation" :=
    dictGet_dictSet_ne fields "evaluation_timestamp" "recommendation" _ (by decide)
  refine ⟨?_, dictGet_dictSet_self fields "evaluation_timestamp" _, ?_, ?_⟩
  · simp [processResume, processResumeBody, validateFileType, havr, havj, hrr, hrj,
      uploadStep, hur, huj, hcc, hscore, hsa, strTruthy, natIdTruthy, hfn, hft, hjn,
      hjt, hun, saveFileRecord, saveCacheRecord, saveAnalysisResult]
  · intro k hk
    exact dictGet_dictSet_ne fields "evaluation_timestamp" k _ hk
  · simp [processResume, processResumeBody, validateFileType, havr, havj, hrr, hrj,
      uploadStep, hur, huj, hcc, hscore, hsa, strTruthy, natIdTruthy, hfn, hft, hjn,
      hjt, hun, saveFileRecord, saveCacheRecord, saveAnalysisResult, hg1, hg2]

/-- Witness for C4 (amended): the concrete successful structured run
injects the local-clock timestamp and appends one analysis record with the
derived score/recommendation pair. -/
theorem structured_result_injection_witness :
    (processResume sampleEnv "resume.pdf" "jd.pdf" (some "carol") true).result
        = .ok (.structured
            [("candidate_name", .jstr "Ada"), ("overall_fit_score", .jnum 88),
             ("recommendation", .jstr "APPROVED"),
             ("evaluation_timestamp", .jstr "2026-01-01T12:00:00Z")]) ∧
    (processResume sampleEnv "resume.pdf" "jd.pdf" (some "carol") true).db.analysisResults.length
        = 1 := by
  have h := structured_result_injection sampleEnv "resume.pdf" "jd.pdf" "carol"
    [("candidate_name", .jstr "Ada"), ("overall_fit_score", .jnum 88),
     ("recommendation", .jstr "APPROVED")] "{}"
    "files/resume-remote" "files/jd-remote" "cachedContents/abc"
    (by decide) (by decide) rfl rfl (by decide) (by decide) rfl (by decide) rfl rfl
  constructor
  · rw [h.1]
    decide
  · rw [h.2.2.2]
    decide

end ResumeMatch
